import Mathlib

/-!
Shallow embedding of the core substrate of the `ls` repository
(`src/server/public/js/bundle.js`): the `lsEmitter` channel bus, and the
`BaseElement` component tree together with the process-wide indexed-lookup
registry (`indexedElementEvent`) built on top of the bus.

Modelling conventions:
* listener functions are represented by numeric identifiers (`lid`); the value
  a bus listener passes to `event.send` is supplied by an environment
  `env : Nat → List Nat → Option Nat` (`none` means the listener never called
  `send`);
* the JavaScript timer queue is modelled as a FIFO list of queued dispatch
  tasks (every bus dispatch uses `obj.after(1, exe)`, i.e. the same delay, so
  tasks fire in insertion order);
* `clear()` in the source replaces every method of the returned `EVENTS`
  object (including the queries `hasEvent` and `eventsList`) with
  `checkState`; the `destroyed` guard at the top of each modelled operation
  reproduces that replacement.
-/

namespace Leis

/-- Association-list lookup with JavaScript object-key semantics; models the
source's `has(prop, obj)` (`hasOwnProperty`) and property reads `obj[k]`. -/
def lookupA {α β : Type} [DecidableEq α] (k : α) : List (α × β) → Option β
  | [] => none
  | (k', v) :: rest => if k' = k then some v else lookupA k rest

/-- models `obj[k] = v` on a JavaScript object: overwriting keeps the key's
original position, a fresh key is appended (object insertion order). -/
def setA {α β : Type} [DecidableEq α] (k : α) (v : β) : List (α × β) → List (α × β)
  | [] => [(k, v)]
  | (k', v') :: rest => if k' = k then (k, v) :: rest else (k', v') :: setA k v rest

/-- models `delete obj[k]`. -/
def eraseA {α β : Type} [DecidableEq α] (k : α) : List (α × β) → List (α × β)
  | [] => []
  | (k', v') :: rest => if k' = k then rest else (k', v') :: eraseA k rest

/-- models an in-place mutation of the value stored at key `k` (a no-op when
the key is absent). -/
def updateA {α β : Type} [DecidableEq α] (k : α) (f : β → β) : List (α × β) → List (α × β)
  | [] => []
  | (k', v') :: rest => if k' = k then (k', f v') :: rest else (k', v') :: updateA k f rest

/-- Error codes raised by the bus as `EventEmitterError` (field `code` in the
source), plus the codes of `removeChannel`. -/
inductive BusErr where
  | invalidChannelName
  | eventDestroyed
  | nonWritableChannel
  | channelNotFound
  | nonRemovableChannel
deriving DecidableEq, Repr

/-- models `channels[channel] = { listener, removable, writable }`; the
listener function is represented by its identifier `lid`. -/
structure ChannelRec where
  lid : Nat
  removable : Bool
  writable : Bool
deriving DecidableEq, Repr

/-- models the closure `exe` built inside `invoke`: it captures the channel
name, the optional result callback (by identifier) and the argument list. -/
structure ExeTask where
  channel : String
  cb : Option Nat
  args : List Nat
deriving DecidableEq, Repr

/-- State of one `lsEmitter` instance: `channels`, `inWaitChannel`, the shared
`data` cell written by `event.send`, the `isDestroyed` flag, and the queue of
dispatch tasks scheduled with `obj.after(1, exe)`. -/
structure EmitterState where
  channels : List (String × ChannelRec)
  inWait : List (String × List ExeTask)
  timers : List ExeTask
  data : Option Nat
  destroyed : Bool
deriving DecidableEq, Repr

/-- Fresh bus: `channels = {}`, `inWaitChannel = {}`, `data = null`,
`isDestroyed = false`. -/
def initEmitter : EmitterState := ⟨[], [], [], none, false⟩

/-- models `validateChannelName`: the name must be a non-empty, non-whitespace
string (`!channel || typeof channel !== "string" || channel.trim() === ""`).
The trimmed string is empty exactly when every character is whitespace, which
is how the test is phrased here so that it evaluates structurally. -/
def validChannelName (s : String) : Bool := !(s.data.all Char.isWhitespace)

instance {ε α : Type} [DecidableEq ε] [DecidableEq α] : DecidableEq (Except ε α) := fun x y =>
  match x, y with
  | .ok a, .ok b =>
    if h : a = b then isTrue (by rw [h]) else isFalse (by intro he; cases he; exact h rfl)
  | .ok _, .error _ => isFalse (by intro h; cases h)
  | .error _, .ok _ => isFalse (by intro h; cases h)
  | .error e, .error f =>
    if h : e = f then isTrue (by rw [h]) else isFalse (by intro he; cases he; exact h rfl)

/-- models `if(!inWaitChannel[channel]) inWaitChannel[channel] = [];
inWaitChannel[channel].push(thunk)`. -/
def pushWait (iw : List (String × List ExeTask)) (n : String) (t : ExeTask) :
    List (String × List ExeTask) :=
  match lookupA n iw with
  | some l => setA n (l ++ [t]) iw
  | none => iw ++ [(n, [t])]

/-- models `invoke(channel, listener, ...args)`: an existing channel gets its
dispatch scheduled (`obj.after(1, exe)`, FIFO timer queue); a missing channel
gets the dispatch thunk appended to its pending queue instead.  The
`destroyed` guard models the replacement of every method by `checkState`
performed by `clear()`. -/
def invoke (s : EmitterState) (channel : String) (cb : Option Nat) (args : List Nat) :
    Except BusErr EmitterState :=
  if s.destroyed then .error .eventDestroyed
  else if validChannelName channel = false then .error .invalidChannelName
  else if (lookupA channel s.channels).isSome then
    .ok { s with timers := s.timers ++ [⟨channel, cb, args⟩] }
  else
    .ok { s with inWait := pushWait s.inWait channel ⟨channel, cb, args⟩ }

/-- models `handle(channel, listener, removable, writable)` (defaults in the
source: `removable = true`, `writable = true`): redefining a non-writable
channel throws `NON_WRITABLE_CHANNEL`; otherwise any pending queue for the
name is drained in insertion order (each queued thunk runs
`obj.after(1, exe)`, so the dispatches join the timer queue) and the queue
entry is deleted; finally the channel record is (over)written. -/
def handle (s : EmitterState) (channel : String) (lid : Nat)
    (removable : Bool) (writable : Bool) : Except BusErr EmitterState :=
  if s.destroyed then .error .eventDestroyed
  else if validChannelName channel = false then .error .invalidChannelName
  else if (match lookupA channel s.channels with
           | some r => !r.writable
           | none => false) then .error .nonWritableChannel
  else
    match lookupA channel s.inWait with
    | some pending =>
        .ok { s with channels := setA channel ⟨lid, removable, writable⟩ s.channels,
                     timers := s.timers ++ pending,
                     inWait := eraseA channel s.inWait }
    | none =>
        .ok { s with channels := setA channel ⟨lid, removable, writable⟩ s.channels }

/-- models `removeChannel` (exported as `removeEvent`): a missing channel
throws `CHANNEL_NOT_FOUND`, a non-removable one `NON_REMOVABLE_CHANNEL`;
otherwise the channel and any pending queue for it are deleted.  (The final
`data && data.channel === channel` reset never fires in the model because the
sent values are scalars, whose `channel` property is undefined.) -/
def removeChannel (s : EmitterState) (channel : String) : Except BusErr EmitterState :=
  if s.destroyed then .error .eventDestroyed
  else if validChannelName channel = false then .error .invalidChannelName
  else
    match lookupA channel s.channels with
    | none => .error .channelNotFound
    | some r =>
      if !r.removable then .error .nonRemovableChannel
      else .ok { s with channels := eraseA channel s.channels,
                        inWait := eraseA channel s.inWait }

/-- models `clear()`: every channel and pending queue is deleted, `data` is
reset, every method of the `EVENTS` object is replaced by `checkState`
(captured by the `destroyed` flag consulted by all modelled operations), and
`isDestroyed` becomes `true`.  Dispatch timers already scheduled are not
cancelled; their `exe` bodies test `isDestroyed` when they fire. -/
def clear (s : EmitterState) : Except BusErr EmitterState :=
  if s.destroyed then .error .eventDestroyed
  else .ok { channels := [], inWait := [], timers := s.timers, data := none, destroyed := true }

/-- models `hasEvent(channel)`.  After `clear()` the method has been replaced
by `checkState`, hence the destroyed guard. -/
def hasEvent (s : EmitterState) (channel : String) : Except BusErr Bool :=
  if s.destroyed then .error .eventDestroyed
  else .ok (lookupA channel s.channels).isSome

/-- models `eventsList()`.  After `clear()` the method has been replaced by
`checkState`, hence the destroyed guard. -/
def eventsList (s : EmitterState) : Except BusErr (List String) :=
  if s.destroyed then .error .eventDestroyed
  else .ok (s.channels.map (·.1))

/-- Observable events of a dispatch: the channel listener being called with
`(event, ...args)` (the capability argument is implicit), and the result
callback being called with the value passed to `event.send` (`none` when
`send` was never called, i.e. the JavaScript `null`). -/
inductive BusEv where
  | listenerCalled (lid : Nat) (args : List Nat)
  | callbackCalled (cb : Nat) (val : Option Nat)
deriving DecidableEq, Repr

/-- models the body of `exe` inside `invoke`, fired by the timer queue:
if the bus is not destroyed and the channel (looked up at fire time) exists,
its listener runs with `(event_, ...args)` and may write `data` through
`event.send`; then the result callback, if any, receives `data`; finally
`data` is reset to `null`. -/
def runTask (env : Nat → List Nat → Option Nat) (s : EmitterState) (t : ExeTask) :
    EmitterState × List BusEv :=
  if s.destroyed then ({ s with data := none }, [])
  else
    match lookupA t.channel s.channels with
    | some r =>
        let d := match env r.lid t.args with
          | some v => some v
          | none => s.data
        ({ s with data := none },
         BusEv.listenerCalled r.lid t.args ::
           (match t.cb with
            | some c => [BusEv.callbackCalled c d]
            | none => []))
    | none =>
        ({ s with data := none },
         match t.cb with
         | some c => [BusEv.callbackCalled c s.data]
         | none => [])

/-- Runs a list of dispatch tasks front to back, concatenating their traces. -/
def runTaskList (env : Nat → List Nat → Option Nat) :
    EmitterState → List ExeTask → EmitterState × List BusEv
  | s, [] => (s, [])
  | s, t :: rest =>
    let p := runTask env s t
    let q := runTaskList env p.1 rest
    (q.1, p.2 ++ q.2)

/-- Drains the timer queue of a bus in FIFO order (all dispatches were
scheduled with the same delay `1`, so they fire in insertion order). -/
def runTimers (env : Nat → List Nat → Option Nat) (s : EmitterState) :
    EmitterState × List BusEv :=
  runTaskList env { s with timers := [] } s.timers

/-- Builds the dispatch task of one `invoke(n, cb, ...args)` call. -/
def mkTask (n : String) (p : Nat × List Nat) : ExeTask := ⟨n, some p.1, p.2⟩

/-- models a sequence of `invoke(n, cbᵢ, ...argsᵢ)` calls issued one after the
other on the same bus (stopping at the first thrown error). -/
def invokeSeq (n : String) : EmitterState → List (Nat × List Nat) → Except BusErr EmitterState
  | s, [] => .ok s
  | s, (cb, args) :: rest =>
    match invoke s n (some cb) args with
    | .ok s' => invokeSeq n s' rest
    | .error e => .error e

/-- Errors thrown through `DisplayError` by the component tree; the source
raises `UniqueType` with the `uniqueTypeError` message template, which the
design document calls `UniqueKeyViolation`. -/
inductive ElemErr where
  | uniqueKeyViolation (name : String)
deriving DecidableEq, Repr

/-- One `BaseElement` instance.  `content`/`contentMap` are the ordered child
list and the key-to-child map; `confId`/`confChildren` model the owned
rendering surface (`this._conf`): its assigned `id` and the list of child
surfaces appended to it; `eventMap` maps an event type to named listener
records; `renderListeners`/`addListeners`/`destroyListeners` are the
`eventListeners` lifecycle lists registered through `once`; `domListeners`
models the `(type, name)` pairs attached with `addEventListener`; `cleared`
records that the delayed field-deletion phase of `destroy` ran. -/
structure Elem where
  key : Nat
  content : List Nat
  contentMap : List Nat
  rendered : Bool
  visible : Bool
  parent : Option Nat
  indexName : Option String
  eventMap : List (String × List (String × Nat))
  domListeners : List (String × String)
  renderListeners : List Nat
  addListeners : List Nat
  destroyListeners : List Nat
  confId : Option Nat
  confChildren : List Nat
  cleared : Bool
deriving DecidableEq, Repr

/-- models the `BaseElement` constructor: fresh children collections,
`state = \x7b visible: true \x7d` (so `rendered` is undefined, i.e. false),
`parent = null`, empty event maps. -/
def mkElem (k : Nat) : Elem :=
  ⟨k, [], [], false, true, none, none, [], [], [], [], [], none, [], false⟩

/-- Process-wide state: the heap of live `BaseElement` objects, the global
component registry `leisElementMap` (keys present in it), the shared
`indexedElementEvent` bus, and the global `useRender` hook list. -/
structure World where
  elems : List (Nat × Elem)
  registry : List Nat
  indexBus : EmitterState
  useRenderHooks : List Nat
deriving DecidableEq, Repr

def World.findElem (w : World) (k : Nat) : Option Elem := lookupA k w.elems

def World.updateElemW (w : World) (k : Nat) (f : Elem → Elem) : World :=
  { w with elems := updateA k f w.elems }

def emptyWorld : World := ⟨[], [], initEmitter, []⟩

/-- models the effect of the `create` factory on the shared state: the new
object joins the heap and `leisElementMap[element.key] = element`. -/
def createElem (w : World) (k : Nat) : World :=
  { w with elems := w.elems ++ [(k, mkElem k)], registry := w.registry ++ [k] }

/-- Observable events of the component tree: a `useRender` hook firing for an
element, a lifecycle listener (`render`, `add`, `destroy`) firing, and an
`add` lifecycle listener being scheduled with the fixed 10ms delay. -/
inductive WEv where
  | hookRun (hid : Nat) (k : Nat)
  | lifecycle (nm : String) (k : Nat) (lid : Nat)
  | addScheduled (k : Nat) (lid : Nat)
deriving DecidableEq, Repr

/-- Faults of `render`: recursion beyond the modelled fuel, a key without a
heap object, and the `child.parent.key` dereference on a null parent
(a TypeError in the source). -/
inductive RFault where
  | outOfFuel
  | missingElem
  | nullChildParent
deriving DecidableEq, Repr

/-- models `this.contentMap[child.key] = child`: re-assigning keeps the key's
position, a fresh key is appended. -/
def insertKey (k : Nat) (l : List Nat) : List Nat :=
  if k ∈ l then l else l ++ [k]

/-- models the `this.content.forEach(child => ...)` loop inside `render`:
for each child whose `parent.key` equals this key, insert it into
`contentMap` and then `this._conf.append(child.render())`.  The rendering of
one child is abstracted as `rfn` so that the loop is structurally recursive
on the child list. -/
def renderContentAux (rfn : World → Nat → Except RFault (World × List WEv × Nat)) :
    World → Nat → List Nat → Except RFault (World × List WEv)
  | w, _, [] => .ok (w, [])
  | w, k, ck :: rest =>
    match w.findElem ck with
    | none => .error .missingElem
    | some c =>
      match c.parent with
      | none => .error .nullChildParent
      | some pk =>
        if pk = k then
          let w1 := w.updateElemW k (fun e => { e with contentMap := insertKey ck e.contentMap })
          match rfn w1 ck with
          | .error f => .error f
          | .ok (w2, tr2, _) =>
            let w3 := w2.updateElemW k (fun e => { e with confChildren := e.confChildren ++ [ck] })
            match renderContentAux rfn w3 k rest with
            | .error f => .error f
            | .ok (w4, tr4) => .ok (w4, tr2 ++ tr4)
        else renderContentAux rfn w k rest

/-- models `BaseElement.render`: when not yet rendered, walk `content`
attaching every child whose `parent.key` equals this key, run the
`useRender` hooks, set the surface id to the component key, mark `rendered`,
fire the `render` lifecycle listeners synchronously, and return the surface
handle (identified with the component key); when already rendered, return
the existing handle unchanged.  `fuel` bounds the recursion depth. -/
def render : Nat → World → Nat → Except RFault (World × List WEv × Nat)
  | 0, _, _ => .error .outOfFuel
  | fuel + 1, w, k =>
    match w.findElem k with
    | none => .error .missingElem
    | some e =>
      if e.rendered then .ok (w, [], k)
      else
        match renderContentAux (render fuel) w k e.content with
        | .error f => .error f
        | .ok (w1, tr1) =>
          let tr2 := w1.useRenderHooks.map (fun h => WEv.hookRun h k)
          let w2 := w1.updateElemW k (fun e' => { e' with confId := some k, rendered := true })
          let trL := (match w2.findElem k with
                      | some e' => e'.renderListeners
                      | none => []).map (WEv.lifecycle "render" k)
          .ok (w2, tr1 ++ tr2 ++ trL, k)

/-- models `BaseElement.add` called with an actual `BaseElement` argument:
schedule the `add` lifecycle listeners (fixed 10ms delay), set the child's
parent pointer, insert the child into `contentMap`, append the child's
rendered surface to this surface, and push the child onto `content`.
A render fault leaves the partial mutations in place (the exception
propagates in the source). -/
def add (fuel : Nat) (w : World) (pk ck : Nat) : World × List WEv :=
  match w.findElem pk with
  | none => (w, [])
  | some p =>
    let tr0 := p.addListeners.map (WEv.addScheduled pk)
    match w.findElem ck with
    | none => (w, tr0)
    | some _ =>
      let w1 := w.updateElemW ck (fun c => { c with parent := some pk })
      let w2 := w1.updateElemW pk (fun q => { q with contentMap := insertKey ck q.contentMap })
      match render fuel w2 ck with
      | .ok (w3, tr3, _) =>
        let w4 := w3.updateElemW pk (fun q =>
          { q with confChildren := q.confChildren ++ [ck], content := q.content ++ [ck] })
        (w4, tr0 ++ tr3)
      | .error _ => (w2, tr0)

/-- models `BaseElement.add` called with an index-name string: the source
calls `getObjectByIndexName(name, true, e => this.add(e))`, which invokes the
`indexedElementEvent` channel of that name with the resolution callback
(identified here by the caller's key), then fires the `add` lifecycle
listeners; since a string is not a `BaseElement`, nothing is attached yet. -/
def addByIndexName (w : World) (pk : Nat) (name : String) : World × List WEv :=
  match invoke w.indexBus name (some pk) [] with
  | .ok bus1 =>
      let tr := match w.findElem pk with
        | some p => p.addListeners.map (WEv.addScheduled pk)
        | none => []
      ({ w with indexBus := bus1 }, tr)
  | .error _ => (w, [])

/-- models the `data.id` setter:
`indexedElementEvent.handle(value, e => e.send(this.element), true, false)`
followed (on success) by `this.indexName = value`.  The registered listener
is identified by the component's key: dispatching it sends the component
itself.  When `handle` throws, the rejection is unobserved and nothing
changes. -/
def setDataId (w : World) (ck : Nat) (name : String) : World :=
  match handle w.indexBus name ck true false with
  | .ok bus1 => ({ w with indexBus := bus1 }).updateElemW ck
      (fun c => { c with indexName := some name })
  | .error _ => w

/-- models one deferred dispatch of the `indexedElementEvent` bus firing:
the channel listener (the id setter's closure) sends the owning component,
and the result callback — `e => pk.add(e)` captured by
`getObjectByIndexName` — attaches the resolved component to `pk`.  When the
channel is gone the callback receives the stale `data` cell (normally
`null`, in which case `add(null)` only fires the `add` lifecycle
listeners). -/
def runIndexTask (fuel : Nat) (w : World) (t : ExeTask) : World × List WEv :=
  let bs := w.indexBus
  let w1 := { w with indexBus := { bs with data := none } }
  if bs.destroyed then (w1, [])
  else
    match lookupA t.channel bs.channels with
    | some r =>
      match t.cb with
      | some pk => add fuel w1 pk r.lid
      | none => (w1, [])
    | none =>
      match t.cb with
      | some pk =>
        match bs.data with
        | some ck => add fuel w1 pk ck
        | none =>
          (w1, match w1.findElem pk with
               | some p => p.addListeners.map (WEv.addScheduled pk)
               | none => [])
      | none => (w1, [])

/-- Runs a list of queued index-bus dispatches front to back. -/
def runIndexTaskList (fuel : Nat) : World → List ExeTask → World × List WEv
  | w, [] => (w, [])
  | w, t :: rest =>
    let p := runIndexTask fuel w t
    let q := runIndexTaskList fuel p.1 rest
    (q.1, p.2 ++ q.2)

/-- Drains the `indexedElementEvent` timer queue in FIFO order. -/
def runIndexTasks (fuel : Nat) (w : World) : World × List WEv :=
  runIndexTaskList fuel { w with indexBus := { w.indexBus with timers := [] } } w.indexBus.timers

/-- Faults of the deferred `destroy` callback: a missing heap object, the
`this.parent.contentMap` read on a null parent (a TypeError in the source),
`removeChild` on a surface that is not attached (a DOMException), and an
error thrown by `indexedElementEvent.removeEvent`. -/
inductive DFault where
  | missingElem
  | nullParent
  | notAChild
  | busError (e : BusErr)
deriving DecidableEq, Repr

/-- models `loopObject(this, (value, key) => \x7b delete this[key] \x7d)`, the
delayed memory-release phase of `destroy`: every own field is deleted. -/
def clearFields (e : Elem) : Elem :=
  { e with content := [], contentMap := [], rendered := false, visible := false,
           parent := none, indexName := none, eventMap := [], domListeners := [],
           renderListeners := [], addListeners := [], destroyListeners := [],
           confId := none, confChildren := [], cleared := true }

/-- models the deferred callback of `BaseElement.destroy` (scheduled at a
fixed 100ms delay): fire the `destroy` lifecycle listeners; if the component
has an index name, remove its channel from `indexedElementEvent`; delete the
component from `leisElementMap`; then read `this.parent.contentMap` — a
TypeError when `parent` is null — and, if this key is recorded there, remove
it from the parent's `contentMap`, rebuild the parent's `content` from the
map, detach the surface (`removeChild`), and schedule the field-deletion
phase (the returned flag).  The world mutated so far is returned alongside
the outcome, since an exception inside `setTimeout` leaves prior mutations
in place. -/
def destroyDeferred (w : World) (k : Nat) : World × List WEv × Except DFault Bool :=
  match w.findElem k with
  | none => (w, [], .error .missingElem)
  | some e =>
    let tr := e.destroyListeners.map (WEv.lifecycle "destroy" k)
    match (match e.indexName with
           | some nm =>
             match removeChannel w.indexBus nm with
             | .ok b => .ok b
             | .error be => .error (DFault.busError be)
           | none => .ok w.indexBus : Except DFault EmitterState) with
    | .error f => (w, tr, .error f)
    | .ok bus1 =>
      let w1 := { w with indexBus := bus1, registry := w.registry.erase k }
      match e.parent with
      | none => (w1, tr, .error .nullParent)
      | some pk =>
        match w1.findElem pk with
        | none => (w1, tr, .error .missingElem)
        | some p =>
          if k ∈ p.contentMap then
            if k ∈ p.confChildren then
              let w2 := w1.updateElemW pk (fun q =>
                { q with contentMap := q.contentMap.erase k,
                         content := q.contentMap.erase k,
                         confChildren := q.confChildren.erase k })
              (w2, tr, .ok true)
            else (w1, tr, .error .notAChild)
          else (w1, tr, .ok false)

/-- models the delayed (1000ms) field-deletion phase of `destroy`. -/
def destroyClearPhase (w : World) (k : Nat) : World :=
  w.updateElemW k clearFields

/-- models the derivation of a listener name when `addEvent` is given no
explicit one: the source uses the listener function's own `name` or a random
`generateId(3, 8)`; the model derives a deterministic stand-in from the
listener identifier. -/
def autoName (lid : Nat) : String := "listener" ++ toString lid

/-- models `BaseElement.addEvent(eventType, listener, eventName, options)`:
the wrapped callback is recorded under `eventMap[eventType][eventName]`
(a missing or empty `eventName` is replaced by a derived one); a colliding
explicit name throws the uniqueness violation before anything is recorded;
otherwise the record is stored and `addEventListener` attaches the wrapper. -/
def addEvent (e : Elem) (eventType : String) (lid : Nat) (eventName : Option String) :
    Except ElemErr Elem :=
  let m := (lookupA eventType e.eventMap).getD []
  let nm := match eventName with
    | some s => if s = "" then autoName lid else s
    | none => autoName lid
  if (lookupA nm m).isSome then .error (.uniqueKeyViolation nm)
  else .ok { e with eventMap := setA eventType (m ++ [(nm, lid)]) e.eventMap,
                    domListeners := e.domListeners ++ [(eventType, nm)] }

/-- models `BaseElement.removeEvent(eventType, eventName, options)`: when both
strings are non-empty and the `(type, name)` record exists, the wrapper is
detached (`removeEventListener`) and the record deleted; otherwise nothing
happens. -/
def removeEvent (e : Elem) (eventType eventName : String) : Elem :=
  if eventType = "" ∨ eventName = "" then e
  else
    match lookupA eventType e.eventMap with
    | none => e
    | some m =>
      if (lookupA eventName m).isSome then
        { e with eventMap := setA eventType (eraseA eventName m) e.eventMap,
                 domListeners := e.domListeners.filter
                   (fun p => !(p.1 = eventType ∧ p.2 = eventName : Bool)) }
      else e

/-- Standard two-component scenario: two freshly created components. -/
def wTwo (pk ck : Nat) : World := createElem (createElem emptyWorld pk) ck

/-- Standard three-component scenario. -/
def wThree : World := createElem (createElem (createElem emptyWorld 1) 2) 3

/-- The parent key recorded for a child (`child.parent.key` in the source,
read through the heap). -/
def childParent (w : World) (ck : Nat) : Option Nat :=
  (w.findElem ck).bind fun c => c.parent

/-- Cumulative effect of the render loop on `contentMap`: the keys of the
children whose recorded parent matches, inserted in traversal order. -/
def contentFold (w : World) (k : Nat) (l : List Nat) (m : List Nat) : List Nat :=
  l.foldl (fun acc ck => if childParent w ck = some k then insertKey ck acc else acc) m

/-- The children of `l` whose recorded parent key equals `k`, in order — the
ones `render` attaches. -/
def contentFilter (w : World) (k : Nat) (l : List Nat) : List Nat :=
  l.filter fun ck => decide (childParent w ck = some k)

/-- Cumulative world effect of the render loop of component `k` over child
list `l`: each child whose parent key (read in the reference world `wref`)
equals `k` is inserted into `k`'s `contentMap` and appended to its surface. -/
def attachAll (wref : World) (k : Nat) : World → List Nat → World
  | w, [] => w
  | w, ck :: rest =>
    if childParent wref ck = some k then
      attachAll wref k (w.updateElemW k (fun e =>
        { e with contentMap := insertKey ck e.contentMap,
                 confChildren := e.confChildren ++ [ck] })) rest
    else attachAll wref k w rest

theorem lookupA_singleton_self {β : Type} (n : String) (v : β) :
    lookupA n [(n, v)] = some v := by
  simp [lookupA]

theorem eraseA_singleton_self {β : Type} (n : String) (v : β) :
    eraseA n [(n, v)] = ([] : List (String × β)) := by
  simp [eraseA]

/-- A sequence of `invoke`s on a channel that does not exist only grows the
pending queue for that channel. -/
theorem invokeSeq_queues (n : String) (hn : validChannelName n = true) :
    ∀ (qs : List (Nat × List Nat)) (s : EmitterState),
      s.destroyed = false → lookupA n s.channels = none →
      invokeSeq n s qs =
        .ok { s with inWait := qs.foldl (fun iw p => pushWait iw n (mkTask n p)) s.inWait }
  | [], s, _, _ => rfl
  | (cb, args) :: rest, s, hd, hc => by
    have h1 : invoke s n (some cb) args =
        .ok { s with inWait := pushWait s.inWait n (mkTask n (cb, args)) } := by
      simp [invoke, hd, hn, hc, mkTask]
    simp only [invokeSeq, h1]
    exact invokeSeq_queues n hn rest _ hd hc

theorem foldl_pushWait_entry (n : String) :
    ∀ (qs : List (Nat × List Nat)) (acc : List ExeTask),
      qs.foldl (fun iw p => pushWait iw n (mkTask n p)) [(n, acc)] =
        [(n, acc ++ qs.map (mkTask n))]
  | [], acc => by simp
  | q :: rest, acc => by
    have h1 : pushWait [(n, acc)] n (mkTask n q) = [(n, acc ++ [mkTask n q])] := by
      simp [pushWait, lookupA, setA]
    simp only [List.foldl_cons, h1, foldl_pushWait_entry n rest, List.map_cons]
    simp

/-- Dispatch tasks on an existing channel fire the listener and then the
result callback with the value the listener sent. -/
theorem runTaskList_ready (env : Nat → List Nat → Option Nat) (n : String)
    (lid : Nat) (rm wr : Bool) :
    ∀ (ts : List ExeTask) (s : EmitterState),
      s.destroyed = false → lookupA n s.channels = some ⟨lid, rm, wr⟩ → s.data = none →
      (∀ t ∈ ts, t.channel = n) →
      runTaskList env s ts =
        (s, ts.flatMap (fun t =>
          BusEv.listenerCalled lid t.args ::
            (match t.cb with
             | some c => [BusEv.callbackCalled c (env lid t.args)]
             | none => [])))
  | [], s, _, _, _, _ => by simp [runTaskList]
  | t :: rest, s, hd, hc, hdata, hch => by
    have htc : t.channel = n := hch t (by simp)
    have h1 : runTask env s t =
        (s, BusEv.listenerCalled lid t.args ::
          (match t.cb with
           | some c => [BusEv.callbackCalled c (env lid t.args)]
           | none => [])) := by
      obtain ⟨ch, iw, tm, da, de⟩ := s
      simp only at hd hdata
      subst hd hdata
      cases he : env lid t.args <;>
        simp [runTask, htc, hc, he]
    have h2 := runTaskList_ready env n lid rm wr rest s hd hc hdata
      (fun t' ht' => hch t' (by simp [ht']))
    simp [runTaskList, h1, h2]

/-- Claim C1: if `invoke(n, cb, ...args)` is called on a bus while no channel
`n` exists, and `handle(n, listener)` is called later on the same bus, then
once the deferred dispatch fires the listener is called exactly once with
`args` (after the event capability argument), and `cb` is called with the
value the listener passed to `event.send` (`none` models the JavaScript
`null` delivered when `send` was never called). -/
theorem C1_invoke_before_handle_delivers_once
    (n : String) (cb : Nat) (args : List Nat) (lid : Nat) (rm wr : Bool)
    (env : Nat → List Nat → Option Nat) (hn : validChannelName n = true) :
    ∃ s1 s2,
      invoke initEmitter n (some cb) args = .ok s1 ∧
      handle s1 n lid rm wr = .ok s2 ∧
      (runTimers env s2).2 =
        [BusEv.listenerCalled lid args, BusEv.callbackCalled cb (env lid args)] ∧
      (runTimers env s2).2.count (BusEv.listenerCalled lid args) = 1 := by
  refine ⟨⟨[], [(n, [⟨n, some cb, args⟩])], [], none, false⟩,
          ⟨[(n, ⟨lid, rm, wr⟩)], [], [⟨n, some cb, args⟩], none, false⟩, ?_, ?_, ?_, ?_⟩
  · simp [invoke, initEmitter, hn, lookupA, pushWait]
  · simp [handle, hn, lookupA, setA, eraseA]
  · cases he : env lid args <;>
      simp [runTimers, runTaskList, runTask, lookupA, he]
  · cases he : env lid args <;>
      simp [runTimers, runTaskList, runTask, lookupA, he, List.count_cons]

/-- Witness for C1 at a concrete input. -/
theorem C1_witness :
    ∃ s1 s2,
      invoke initEmitter "ch" (some 7) [3, 4] = .ok s1 ∧
      handle s1 "ch" 5 true true = .ok s2 ∧
      (runTimers (fun _ _ => some 9) s2).2 =
        [BusEv.listenerCalled 5 [3, 4], BusEv.callbackCalled 7 (some 9)] ∧
      (runTimers (fun _ _ => some 9) s2).2.count (BusEv.listenerCalled 5 [3, 4]) = 1 :=
  C1_invoke_before_handle_delivers_once "ch" 7 [3, 4] 5 true true
    (fun _ _ => some 9) (by decide)

/-- Claim C4: all `invoke(n, ...)` calls issued while no channel `n` exists
are queued, and once `handle(n, listener)` is called the deferred dispatches
execute in exactly the order the `invoke` calls were issued; the pending
queue entry for `n` is gone after draining. -/
theorem C4_pending_queue_fifo_drain
    (n : String) (qs : List (Nat × List Nat)) (lid : Nat)
    (env : Nat → List Nat → Option Nat) (hn : validChannelName n = true) :
    ∃ s1 s2,
      invokeSeq n initEmitter qs = .ok s1 ∧
      handle s1 n lid true true = .ok s2 ∧
      s2.timers = qs.map (mkTask n) ∧
      lookupA n s2.inWait = none ∧
      runTimers env s2 =
        ({ s2 with timers := [] },
         qs.flatMap (fun p =>
           [BusEv.listenerCalled lid p.2, BusEv.callbackCalled p.1 (env lid p.2)])) := by
  have hq := invokeSeq_queues n hn qs initEmitter rfl rfl
  match qs with
  | [] =>
    refine ⟨initEmitter, ⟨[(n, ⟨lid, true, true⟩)], [], [], none, false⟩, ?_, ?_, ?_, ?_, ?_⟩
    · simpa [initEmitter] using hq
    · simp [handle, hn, initEmitter, lookupA, setA]
    · simp
    · simp [lookupA]
    · simp [runTimers, runTaskList]
  | q :: rest =>
    have hfold : (q :: rest).foldl (fun iw p => pushWait iw n (mkTask n p))
        ([] : List (String × List ExeTask)) = [(n, (q :: rest).map (mkTask n))] := by
      have h0 : pushWait [] n (mkTask n q) = [(n, [mkTask n q])] := by
        simp [pushWait, lookupA]
      simp only [List.foldl_cons, h0, foldl_pushWait_entry n rest, List.map_cons]
      simp
    refine ⟨⟨[], [(n, (q :: rest).map (mkTask n))], [], none, false⟩,
            ⟨[(n, ⟨lid, true, true⟩)], [], (q :: rest).map (mkTask n), none, false⟩,
            ?_, ?_, ?_, ?_, ?_⟩
    · rw [hq]; simp [initEmitter, hfold]
    · simp [handle, hn, lookupA, setA, eraseA]
    · simp
    · simp [lookupA]
    · have hrun := runTaskList_ready env n lid true true ((q :: rest).map (mkTask n))
        ⟨[(n, ⟨lid, true, true⟩)], [], [], none, false⟩ rfl
        (by simp [lookupA]) rfl
        (by intro t ht
            simp only [List.mem_map] at ht
            obtain ⟨p, -, rfl⟩ := ht
            rfl)
      simp only [runTimers] at *
      rw [hrun]
      simp [mkTask, List.flatMap_map]

/-- Witness for C4 at a concrete input: two queued invocations drain in
issue order. -/
theorem C4_witness :
    ∃ s1 s2,
      invokeSeq "ch" initEmitter [(7, [1]), (8, [2])] = .ok s1 ∧
      handle s1 "ch" 5 true true = .ok s2 ∧
      s2.timers = [⟨"ch", some 7, [1]⟩, ⟨"ch", some 8, [2]⟩] ∧
      lookupA "ch" s2.inWait = none ∧
      runTimers (fun _ _ => none) s2 =
        ({ s2 with timers := [] },
         [BusEv.listenerCalled 5 [1], BusEv.callbackCalled 7 none,
          BusEv.listenerCalled 5 [2], BusEv.callbackCalled 8 none]) :=
  C4_pending_queue_fifo_drain "ch" [(7, [1]), (8, [2])] 5 (fun _ _ => none) (by decide)

/-- Counterexample to claim C5 as stated: `handle(n, l1, removable = false)`
leaves the channel's `writable` flag at its default `true`, so a second
`handle(n, l2)` does not fail with `NonWritableChannel` — it succeeds and
replaces the listener, so `l1` does not remain active. -/
theorem C5_counterexample :
    handle initEmitter "ch" 1 false true =
        .ok ⟨[("ch", ⟨1, false, true⟩)], [], [], none, false⟩ ∧
    handle ⟨[("ch", ⟨1, false, true⟩)], [], [], none, false⟩ "ch" 2 true true =
        .ok ⟨[("ch", ⟨2, true, true⟩)], [], [], none, false⟩ := by decide

/-- Claim C5 (amended): it is the `writable = false` flag (not
`removable = false`) that protects a channel: after
`handle(n, l1, removable, writable = false)`, a subsequent `handle(n, l2)`
fails with `NonWritableChannel` and `l1` remains the active listener. -/
theorem C5_amended_nonwritable_blocks_redefine
    (n : String) (l1 l2 : Nat) (rm rm' wr' : Bool)
    (hn : validChannelName n = true) :
    ∃ s1, handle initEmitter n l1 rm false = .ok s1 ∧
          handle s1 n l2 rm' wr' = .error .nonWritableChannel ∧
          lookupA n s1.channels = some ⟨l1, rm, false⟩ := by
  refine ⟨⟨[(n, ⟨l1, rm, false⟩)], [], [], none, false⟩, ?_, ?_, ?_⟩
  · simp [handle, initEmitter, hn, lookupA, setA]
  · simp [handle, hn, lookupA]
  · simp [lookupA]

/-- Witness for the amended C5 at a concrete input. -/
theorem C5_witness :
    ∃ s1, handle initEmitter "ch" 1 true false = .ok s1 ∧
          handle s1 "ch" 2 true true = .error .nonWritableChannel ∧
          lookupA "ch" s1.channels = some ⟨1, true, false⟩ :=
  C5_amended_nonwritable_blocks_redefine "ch" 1 2 true true true (by decide)

/-- Counterexample to claim C8 as stated: `clear()` replaces every method of
the `EVENTS` object — including the queries `hasEvent` and `eventsList` —
with `checkState`, so after `clear()` the queries fail with `EventDestroyed`
instead of remaining available. -/
theorem C8_counterexample :
    clear initEmitter = .ok ⟨[], [], [], none, true⟩ ∧
    hasEvent ⟨[], [], [], none, true⟩ "a" = .error .eventDestroyed ∧
    eventsList ⟨[], [], [], none, true⟩ = .error .eventDestroyed := by decide

/-- Claim C8 (amended): once `clear()` has run, every subsequent operation on
the same bus instance — `handle`, `invoke`, `removeEvent`, `clear` itself,
and also the queries `hasEvent` and `eventsList` — fails with
`EventDestroyed`; no operation other than `clear` sets the destroyed flag,
and no operation ever unsets it (the Active-to-Destroyed transition is
one-way and triggered only by `clear`). -/
theorem C8_all_ops_fail_after_clear :
    (∀ (s : EmitterState) (n : String) (lid : Nat) (rm wr : Bool)
        (cb : Option Nat) (args : List Nat), s.destroyed = true →
        handle s n lid rm wr = .error .eventDestroyed ∧
        invoke s n cb args = .error .eventDestroyed ∧
        removeChannel s n = .error .eventDestroyed ∧
        clear s = .error .eventDestroyed ∧
        hasEvent s n = .error .eventDestroyed ∧
        eventsList s = .error .eventDestroyed) ∧
    (∀ (s s' : EmitterState) (n : String) (lid : Nat) (rm wr : Bool),
        handle s n lid rm wr = .ok s' → s'.destroyed = s.destroyed) ∧
    (∀ (s s' : EmitterState) (n : String) (cb : Option Nat) (args : List Nat),
        invoke s n cb args = .ok s' → s'.destroyed = s.destroyed) ∧
    (∀ (s s' : EmitterState) (n : String),
        removeChannel s n = .ok s' → s'.destroyed = s.destroyed) ∧
    (∀ s s' : EmitterState, clear s = .ok s' → s'.destroyed = true) := by
  refine ⟨?_, ?_, ?_, ?_, ?_⟩
  · intro s n lid rm wr cb args h
    refine ⟨?_, ?_, ?_, ?_, ?_, ?_⟩ <;>
      simp [handle, invoke, removeChannel, clear, hasEvent, eventsList, h]
  · intro s s' n lid rm wr h
    unfold handle at h
    split at h
    · cases h
    · split at h
      · cases h
      · split at h
        · cases h
        · split at h <;> (simp only [Except.ok.injEq] at h; subst h; rfl)
  · intro s s' n cb args h
    unfold invoke at h
    split at h
    · cases h
    · split at h
      · cases h
      · split at h <;> (simp only [Except.ok.injEq] at h; subst h; rfl)
  · intro s s' n h
    unfold removeChannel at h
    split at h
    · cases h
    · split at h
      · cases h
      · split at h
        · cases h
        · split at h
          · cases h
          · simp only [Except.ok.injEq] at h; subst h; rfl
  · intro s s' h
    unfold clear at h
    split at h
    · cases h
    · simp only [Except.ok.injEq] at h; subst h; rfl

/-- Witness for the amended C8 at a concrete input: `invoke` on a destroyed
bus fails with `EventDestroyed`. -/
theorem C8_witness :
    invoke ⟨[], [], [], none, true⟩ "b" none [] = .error .eventDestroyed :=
  (C8_all_ops_fail_after_clear.1 ⟨[], [], [], none, true⟩ "b" 0 true true none [] rfl).2.1

example :
    (add 1 (wTwo 1 2) 1 2).1 =
      ⟨[(1, { mkElem 1 with content := [2], contentMap := [2], confChildren := [2] }),
        (2, { mkElem 2 with parent := some 1, rendered := true, confId := some 2 })],
       [1, 2], initEmitter, []⟩ := by decide

example :
    (destroyDeferred (add 1 (wTwo 1 2) 1 2).1 1).2.2 = .error .nullParent := by decide

example :
    addEvent (mkElem 0) "click" 5 (some "a") =
      .ok { mkElem 0 with eventMap := [("click", [("a", 5)])],
                          domListeners := [("click", "a")] } := by decide

theorem lookupA_updateA_self {α β : Type} [DecidableEq α] (k : α) (f : β → β) :
    ∀ l : List (α × β), lookupA k (updateA k f l) = (lookupA k l).map f
  | [] => rfl
  | (k', v) :: rest => by
    by_cases h : k' = k <;> simp [lookupA, updateA, h, lookupA_updateA_self k f rest]

theorem lookupA_updateA_ne {α β : Type} [DecidableEq α] (f : β → β) {j k : α} (h : j ≠ k) :
    ∀ l : List (α × β), lookupA j (updateA k f l) = lookupA j l
  | [] => rfl
  | (k', v) :: rest => by
    by_cases h1 : k' = k <;> by_cases h2 : k' = j <;>
      simp_all [lookupA, updateA, lookupA_updateA_ne f h rest]

theorem updateA_comp {α β : Type} [DecidableEq α] (k : α) (f g : β → β) :
    ∀ l : List (α × β), updateA k g (updateA k f l) = updateA k (fun v => g (f v)) l
  | [] => rfl
  | (k', v) :: rest => by
    by_cases h : k' = k <;> simp [updateA, h, updateA_comp k f g rest]

theorem findElem_updateElemW_self (w : World) (k : Nat) (f : Elem → Elem) :
    (w.updateElemW k f).findElem k = (w.findElem k).map f :=
  lookupA_updateA_self k f w.elems

theorem findElem_updateElemW_ne (w : World) (k : Nat) (f : Elem → Elem) {j : Nat}
    (h : j ≠ k) : (w.updateElemW k f).findElem j = w.findElem j :=
  lookupA_updateA_ne f h w.elems

theorem updateElemW_comp (w : World) (k : Nat) (f g : Elem → Elem) :
    (w.updateElemW k f).updateElemW k g = w.updateElemW k (fun e => g (f e)) := by
  simp [World.updateElemW, updateA_comp]

theorem childParent_updateElemW_ne (w : World) (k : Nat) (f : Elem → Elem) {ck : Nat}
    (h : ck ≠ k) : childParent (w.updateElemW k f) ck = childParent w ck := by
  simp [childParent, findElem_updateElemW_ne _ _ _ h]

theorem attachAll_useRenderHooks (wref : World) (k : Nat) :
    ∀ (l : List Nat) (w0 : World), (attachAll wref k w0 l).useRenderHooks = w0.useRenderHooks
  | [], _ => rfl
  | ck :: rest, w0 => by
    by_cases h : childParent wref ck = some k <;>
      simp [attachAll, h, attachAll_useRenderHooks wref k rest, World.updateElemW]

theorem attachAll_findElem_ne (wref : World) {j k : Nat} (h : j ≠ k) :
    ∀ (l : List Nat) (w0 : World), (attachAll wref k w0 l).findElem j = w0.findElem j
  | [], _ => rfl
  | ck :: rest, w0 => by
    by_cases hcp : childParent wref ck = some k <;>
      simp [attachAll, hcp, attachAll_findElem_ne wref h rest, findElem_updateElemW_ne _ _ _ h]

theorem attachAll_findElem (wref : World) (k : Nat) :
    ∀ (l : List Nat) (w0 : World),
      (attachAll wref k w0 l).findElem k =
        (w0.findElem k).map (fun e =>
          { e with contentMap := contentFold wref k l e.contentMap,
                   confChildren := e.confChildren ++ contentFilter wref k l })
  | [], w0 => by
    cases hfe : w0.findElem k <;> simp [attachAll, contentFold, contentFilter, hfe]
  | ck :: rest, w0 => by
    by_cases h : childParent wref ck = some k
    · rw [show attachAll wref k w0 (ck :: rest) =
          attachAll wref k (w0.updateElemW k (fun e =>
            { e with contentMap := insertKey ck e.contentMap,
                     confChildren := e.confChildren ++ [ck] })) rest from by
            simp [attachAll, h]]
      rw [attachAll_findElem wref k rest, findElem_updateElemW_self]
      cases hfe : w0.findElem k <;>
        simp [contentFold, contentFilter, h, hfe, List.filter_cons]
    · rw [show attachAll wref k w0 (ck :: rest) = attachAll wref k w0 rest from by
          simp [attachAll, h]]
      rw [attachAll_findElem wref k rest]
      cases hfe : w0.findElem k <;>
        simp [contentFold, contentFilter, h, hfe, List.filter_cons]

theorem attachAll_congr (k : Nat) :
    ∀ (l : List Nat) (wref wref' w0 : World),
      (∀ ck ∈ l, childParent wref' ck = childParent wref ck) →
      attachAll wref' k w0 l = attachAll wref k w0 l
  | [], _, _, _, _ => rfl
  | ck :: rest, wref, wref', w0, hcp => by
    have h0 := hcp ck (by simp)
    have htail : ∀ c ∈ rest, childParent wref' c = childParent wref c :=
      fun c hm => hcp c (by simp [hm])
    by_cases h : childParent wref ck = some k <;>
      simp [attachAll, h0, h, attachAll_congr k rest wref wref' _ htail]

/-- The render loop over a list of already-rendered, parented children
performs exactly the cumulative attachment `attachAll` and produces no
events (each child's `render` returns its existing handle immediately). -/
theorem renderContentAux_all_rendered (F k : Nat) :
    ∀ (l : List Nat) (w : World),
      (∀ ck ∈ l, ck ≠ k ∧
        ((w.findElem ck).map (fun c => c.rendered && c.parent.isSome)) = some true) →
      renderContentAux (render (F + 1)) w k l = .ok (attachAll w k w l, [])
  | [], w, _ => by simp [renderContentAux, attachAll]
  | ck :: rest, w, hch => by
    obtain ⟨hkne, hcw⟩ := hch ck (by simp)
    cases hc : w.findElem ck with
    | none => rw [hc] at hcw; simp at hcw
    | some c =>
      rw [hc] at hcw
      obtain ⟨hcr, hps⟩ : c.rendered = true ∧ c.parent.isSome = true := by
        simpa using hcw
      cases hp : c.parent with
      | none => rw [hp] at hps; simp at hps
      | some pc =>
        have hcpw : childParent w ck = some pc := by simp [childParent, hc, hp]
        by_cases hpk : pc = k
        · rw [hpk] at hp hcpw
          have hw1 : ((w.updateElemW k fun e =>
              { e with contentMap := insertKey ck e.contentMap }).findElem ck) = some c := by
            rw [findElem_updateElemW_ne _ _ _ hkne]; exact hc
          have hrck : render (F + 1)
              (w.updateElemW k fun e => { e with contentMap := insertKey ck e.contentMap }) ck =
              .ok ((w.updateElemW k fun e =>
                { e with contentMap := insertKey ck e.contentMap }), [], ck) := by
            simp [render, hw1, hcr]
          have hIH := renderContentAux_all_rendered F k rest
            ((w.updateElemW k fun e =>
              { e with contentMap := insertKey ck e.contentMap }).updateElemW k
              fun e => { e with confChildren := e.confChildren ++ [ck] })
            (by intro ck' hm'
                obtain ⟨hne', hcc'⟩ := hch ck' (by simp [hm'])
                refine ⟨hne', ?_⟩
                rw [findElem_updateElemW_ne _ _ _ hne', findElem_updateElemW_ne _ _ _ hne']
                exact hcc')
          have hw3 : ((w.updateElemW k fun e =>
              { e with contentMap := insertKey ck e.contentMap }).updateElemW k
              fun e => { e with confChildren := e.confChildren ++ [ck] }) =
              w.updateElemW k (fun e =>
                { e with contentMap := insertKey ck e.contentMap,
                         confChildren := e.confChildren ++ [ck] }) := by
            rw [updateElemW_comp]
          have htail : ∀ c' ∈ rest,
              childParent (w.updateElemW k (fun e =>
                { e with contentMap := insertKey ck e.contentMap,
                         confChildren := e.confChildren ++ [ck] })) c' =
              childParent w c' := by
            intro c' hm'
            exact childParent_updateElemW_ne w k _ (hch c' (by simp [hm'])).1
          rw [show attachAll w k w (ck :: rest) =
              attachAll w k (w.updateElemW k (fun e =>
                { e with contentMap := insertKey ck e.contentMap,
                         confChildren := e.confChildren ++ [ck] })) rest from by
              simp [attachAll, hcpw]]
          simp only [renderContentAux, hc, hp, eq_self_iff_true, if_true, hrck, hIH]
          rw [hw3, attachAll_congr k rest w _ _ htail]
          simp
        · have hIH := renderContentAux_all_rendered F k rest w
            (fun ck' hm' => hch ck' (by simp [hm']))
          have hne2 : ¬(childParent w ck = some k) := by
            rw [hcpw]; intro hh; exact hpk (Option.some.inj hh)
          rw [show attachAll w k w (ck :: rest) = attachAll w k w rest from by
            simp [attachAll, hne2]]
          simp only [renderContentAux, hc, hp, if_neg hpk, hIH]

/-- Claim C3: `render()` is idempotent.  On a component whose rendered flag
is unset (its children here being already-rendered components with a
recorded parent), the first call attaches every current child whose recorded
parent key equals this component's key (inserting it into `contentMap` and
appending its surface), runs the `useRender` hooks, assigns the component's
key as the rendering surface's identifier, sets `rendered = true`, and fires
the registered `render` lifecycle listeners; no other component changes, and
every subsequent call changes nothing and returns the same surface handle. -/
theorem C3_render_idempotent (w : World) (F G k : Nat) (e : Elem)
    (hf : w.findElem k = some e) (hr : e.rendered = false)
    (hch : ∀ ck ∈ e.content,
      ((w.findElem ck).map (fun c => c.rendered && c.parent.isSome)) = some true) :
    ∃ w1,
      render (F + 1 + 1) w k =
        .ok (w1,
          w.useRenderHooks.map (fun h => WEv.hookRun h k) ++
            e.renderListeners.map (WEv.lifecycle "render" k), k) ∧
      w1.findElem k = some
        { e with contentMap := contentFold w k e.content e.contentMap,
                 confChildren := e.confChildren ++ contentFilter w k e.content,
                 confId := some k, rendered := true } ∧
      (∀ j, j ≠ k → w1.findElem j = w.findElem j) ∧
      render (G + 1) w1 k = .ok (w1, [], k) := by
  have hch' : ∀ ck ∈ e.content, ck ≠ k ∧
      ((w.findElem ck).map (fun c => c.rendered && c.parent.isSome)) = some true := by
    intro ck hm
    refine ⟨?_, hch ck hm⟩
    intro hkk
    have h2 := hch ck hm
    rw [hkk, hf] at h2
    simp [hr] at h2
  have hcontent := renderContentAux_all_rendered F k e.content w hch'
  have hW1k : (attachAll w k w e.content).findElem k = some
      { e with contentMap := contentFold w k e.content e.contentMap,
               confChildren := e.confChildren ++ contentFilter w k e.content } := by
    rw [attachAll_findElem, hf]; rfl
  have hW2k : ((attachAll w k w e.content).updateElemW k
      (fun e' => { e' with confId := some k, rendered := true })).findElem k = some
      { e with contentMap := contentFold w k e.content e.contentMap,
               confChildren := e.confChildren ++ contentFilter w k e.content,
               confId := some k, rendered := true } := by
    rw [findElem_updateElemW_self, hW1k]; rfl
  refine ⟨(attachAll w k w e.content).updateElemW k
      (fun e' => { e' with confId := some k, rendered := true }), ?_, hW2k, ?_, ?_⟩
  · rw [render, hf]
    simp [hr, hcontent, attachAll_useRenderHooks, hW2k]
  · intro j hj
    rw [findElem_updateElemW_ne _ _ _ hj, attachAll_findElem_ne _ hj]
  · simp [render, hW2k]

/-- Witness for C3 at a concrete input: a component (key 1, one hook, one
render listener) with one matching rendered child (key 2) and one
non-matching child (key 3). -/
theorem C3_witness :
    ∃ w1,
      render 2
        (⟨[(1, { mkElem 1 with content := [2, 3], renderListeners := [6] }),
           (2, { mkElem 2 with parent := some 1, rendered := true }),
           (3, { mkElem 3 with parent := some 9, rendered := true })],
          [1, 2, 3], initEmitter, [5]⟩ : World) 1 =
        .ok (w1, [WEv.hookRun 5 1, WEv.lifecycle "render" 1 6], 1) ∧
      w1.findElem 1 = some
        { mkElem 1 with content := [2, 3], renderListeners := [6],
                        contentMap := [2], confChildren := [2],
                        confId := some 1, rendered := true } ∧
      (∀ j, j ≠ 1 →
        w1.findElem j =
          (⟨[(1, { mkElem 1 with content := [2, 3], renderListeners := [6] }),
             (2, { mkElem 2 with parent := some 1, rendered := true }),
             (3, { mkElem 3 with parent := some 9, rendered := true })],
            [1, 2, 3], initEmitter, [5]⟩ : World).findElem j) ∧
      render 1 w1 1 = .ok (w1, [], 1) :=
  C3_render_idempotent _ 0 0 1
    { mkElem 1 with content := [2, 3], renderListeners := [6] }
    (by decide) (by decide) (by decide)

/-- Claim C9: on one component, `addEvent(type, listener, name)` with an
explicit name that already has a registration for that event type fails with
the uniqueness violation and does not replace the existing registration;
`addEvent` for the same type with a distinct name succeeds, and each named
registration is independently removable via `removeEvent(type, name)`. -/
theorem C9_addEvent_unique_names (k : Nat) (t a b : String) (l1 l2 : Nat)
    (hab : a ≠ b) (ha : a ≠ "") (hb : b ≠ "") (ht : t ≠ "") :
    ∃ e1 e2,
      addEvent (mkElem k) t l1 (some a) = .ok e1 ∧
      addEvent e1 t l2 (some a) = .error (.uniqueKeyViolation a) ∧
      lookupA a ((lookupA t e1.eventMap).getD []) = some l1 ∧
      addEvent e1 t l2 (some b) = .ok e2 ∧
      lookupA a ((lookupA t e2.eventMap).getD []) = some l1 ∧
      lookupA b ((lookupA t e2.eventMap).getD []) = some l2 ∧
      lookupA a ((lookupA t (removeEvent e2 t a).eventMap).getD []) = none ∧
      lookupA b ((lookupA t (removeEvent e2 t a).eventMap).getD []) = some l2 ∧
      lookupA b ((lookupA t (removeEvent e2 t b).eventMap).getD []) = none ∧
      lookupA a ((lookupA t (removeEvent e2 t b).eventMap).getD []) = some l1 := by
  refine ⟨{ mkElem k with eventMap := [(t, [(a, l1)])], domListeners := [(t, a)] },
          { mkElem k with eventMap := [(t, [(a, l1), (b, l2)])],
                          domListeners := [(t, a), (t, b)] },
          ?_, ?_, ?_, ?_, ?_, ?_, ?_, ?_, ?_, ?_⟩ <;>
    simp [addEvent, removeEvent, mkElem, lookupA, setA, eraseA, ha, hb, ht, hab, Ne.symm hab]

/-- Witness for C9 at a concrete input. -/
theorem C9_witness :
    ∃ e1 e2,
      addEvent (mkElem 0) "click" 1 (some "a") = .ok e1 ∧
      addEvent e1 "click" 2 (some "a") = .error (.uniqueKeyViolation "a") ∧
      lookupA "a" ((lookupA "click" e1.eventMap).getD []) = some 1 ∧
      addEvent e1 "click" 2 (some "b") = .ok e2 ∧
      lookupA "a" ((lookupA "click" e2.eventMap).getD []) = some 1 ∧
      lookupA "b" ((lookupA "click" e2.eventMap).getD []) = some 2 ∧
      lookupA "a" ((lookupA "click" (removeEvent e2 "click" "a").eventMap).getD []) = none ∧
      lookupA "b" ((lookupA "click" (removeEvent e2 "click" "a").eventMap).getD []) = some 2 ∧
      lookupA "b" ((lookupA "click" (removeEvent e2 "click" "b").eventMap).getD []) = none ∧
      lookupA "a" ((lookupA "click" (removeEvent e2 "click" "b").eventMap).getD []) = some 1 :=
  C9_addEvent_unique_names 0 "click" "a" "b" 1 2
    (by decide) (by decide) (by decide) (by decide)

/-- Claim C10: the deferred phase of `destroy` reads `this.parent.contentMap`
unconditionally, so a component whose parent is null faults there (after the
registry deletion already happened), and the phase can complete without a
fault only when the parent is non-null. -/
theorem C10_destroy_null_parent_faults :
    (∀ (w : World) (k : Nat) (e : Elem),
        w.findElem k = some e → e.parent = none → e.indexName = none →
        destroyDeferred w k =
          ({ w with registry := w.registry.erase k },
           e.destroyListeners.map (WEv.lifecycle "destroy" k), .error .nullParent)) ∧
    (∀ (w : World) (k : Nat) (w' : World) (tr : List WEv) (b : Bool),
        destroyDeferred w k = (w', tr, .ok b) →
        ∃ e pk, w.findElem k = some e ∧ e.parent = some pk) := by
  constructor
  · intro w k e hf hp hidx
    simp [destroyDeferred, hf, hp, hidx]
  · intro w k w' tr b h
    simp only [destroyDeferred] at h
    cases hf : w.findElem k with
    | none => simp only [hf] at h; simp at h
    | some e =>
      simp only [hf] at h
      refine ⟨e, ?_⟩
      cases hidx : e.indexName with
      | none =>
        simp only [hidx] at h
        cases hp : e.parent with
        | none => simp only [hp] at h; simp at h
        | some pk => exact ⟨pk, rfl, rfl⟩
      | some nm =>
        simp only [hidx] at h
        cases hrm : removeChannel w.indexBus nm with
        | error be => simp only [hrm] at h; simp at h
        | ok bus1 =>
          simp only [hrm] at h
          cases hp : e.parent with
          | none => simp only [hp] at h; simp at h
          | some pk => exact ⟨pk, rfl, rfl⟩

/-- Witness for C10 at a concrete input: destroying a freshly created root
faults on the null parent after deleting it from the registry. -/
theorem C10_witness :
    destroyDeferred (wTwo 1 2) 1 =
      (⟨[(1, mkElem 1), (2, mkElem 2)], [2], initEmitter, []⟩, [], .error .nullParent) :=
  C10_destroy_null_parent_faults.1 (wTwo 1 2) 1 (mkElem 1) (by decide) rfl rfl

/-- Counterexample to claim C7 as stated: create `P` (key 1), create `C`
(key 2) with parent `P`, then run `P.destroy()`'s deferred phase.  `C` is
still in the component registry and still in `P`'s `contentMap` afterwards —
`destroy` never touches its children, and for the root `P` the phase even
faults on `this.parent.contentMap` before reaching the parent bookkeeping. -/
theorem C7_counterexample :
    (destroyDeferred (add 1 (wTwo 1 2) 1 2).1 1).2.2 = .error .nullParent ∧
    ((destroyDeferred (add 1 (wTwo 1 2) 1 2).1 1).1).registry = [2] ∧
    (((destroyDeferred (add 1 (wTwo 1 2) 1 2).1 1).1).findElem 1).map
      (fun p => p.contentMap) = some [2] := by decide

/-- Claim C7 (amended): after `P.destroy()`'s deferred phase, `P` itself is
removed from the component registry, but the child `C` is not destroyed: it
remains in the registry with its parent pointer still referencing `P`, and —
`P` being a root with a null parent — the phase faults on
`this.parent.contentMap`, leaving `C` in `P`'s child collection as well. -/
theorem C7_amended_destroy_leaves_children (pk ck f : Nat) (hne : pk ≠ ck) :
    ∃ w',
      destroyDeferred (add (f + 1) (wTwo pk ck) pk ck).1 pk =
        (w', [], .error .nullParent) ∧
      pk ∉ w'.registry ∧ ck ∈ w'.registry ∧
      (w'.findElem ck).map (fun c => c.parent) = some (some pk) ∧
      (w'.findElem pk).map (fun p => p.contentMap) = some [ck] := by
  have hne' : ¬(ck = pk) := fun hh => hne hh.symm
  have hadd : (add (f + 1) (wTwo pk ck) pk ck).1 =
      ⟨[(pk, { mkElem pk with content := [ck], contentMap := [ck], confChildren := [ck] }),
        (ck, { mkElem ck with parent := some pk, rendered := true, confId := some ck })],
       [pk, ck], initEmitter, []⟩ := by
    simp [add, wTwo, createElem, emptyWorld, World.findElem, World.updateElemW, lookupA,
          updateA, insertKey, render, renderContentAux, mkElem, hne, hne']
  rw [hadd]
  refine ⟨⟨[(pk, { mkElem pk with content := [ck], contentMap := [ck], confChildren := [ck] }),
            (ck, { mkElem ck with parent := some pk, rendered := true, confId := some ck })],
           [ck], initEmitter, []⟩, ?_, ?_, ?_, ?_, ?_⟩
  · simp [destroyDeferred, World.findElem, lookupA, mkElem, hne, hne', List.erase_cons]
  · simp [hne]
  · simp
  · simp [World.findElem, lookupA, mkElem, hne, hne']
  · simp [World.findElem, lookupA, mkElem]

/-- Witness for the amended C7 at a concrete input. -/
theorem C7_witness :
    ∃ w',
      destroyDeferred (add 1 (wTwo 1 2) 1 2).1 1 = (w', [], .error .nullParent) ∧
      1 ∉ w'.registry ∧ 2 ∈ w'.registry ∧
      (w'.findElem 2).map (fun c => c.parent) = some (some 1) ∧
      (w'.findElem 1).map (fun p => p.contentMap) = some [2] :=
  C7_amended_destroy_leaves_children 1 2 0 (by decide)

/-- Counterexample to claim C6 as stated: components 1 and 2 are both
assigned the index name `x`.  The second assignment does not win: the `id`
setter registers the channel with `writable = false`, so the second `handle`
throws `NON_WRITABLE_CHANNEL` (an unobserved rejection of the async setter),
component 2's index name stays unset, and a queued `add("x")` issued by
component 3 afterwards attaches component 1 — the first writer. -/
theorem C6_counterexample :
    setDataId (setDataId wThree 1 "x") 2 "x" = setDataId wThree 1 "x" ∧
    lookupA "x" (setDataId wThree 1 "x").indexBus.channels = some ⟨1, true, false⟩ ∧
    ((setDataId (setDataId wThree 1 "x") 2 "x").findElem 2).map
      (fun c => c.indexName) = some none ∧
    (((runIndexTasks 1
        (addByIndexName (setDataId (setDataId wThree 1 "x") 2 "x") 3 "x").1).1).findElem 3).map
      (fun p => p.contentMap) = some [1] ∧
    (((runIndexTasks 1
        (addByIndexName (setDataId (setDataId wThree 1 "x") 2 "x") 3 "x").1).1).findElem 1).map
      (fun c => c.parent) = some (some 3) := by decide

/-- Claim C6 (amended): when two distinct components are assigned the same
index name, the first assignment wins: the second registration attempt fails
with `NonWritableChannel` (the `id` setter registers its channel with
`writable = false`), the second component's index name is not set, and the
name keeps resolving through the registry channel to the first component. -/
theorem C6_amended_first_assignment_wins (pk ck : Nat) (n : String)
    (hne : pk ≠ ck) (hn : validChannelName n = true) :
    handle (setDataId (wTwo pk ck) pk n).indexBus n ck true false =
        .error .nonWritableChannel ∧
    setDataId (setDataId (wTwo pk ck) pk n) ck n = setDataId (wTwo pk ck) pk n ∧
    lookupA n (setDataId (wTwo pk ck) pk n).indexBus.channels = some ⟨pk, true, false⟩ ∧
    ((setDataId (setDataId (wTwo pk ck) pk n) ck n).findElem ck).map
      (fun c => c.indexName) = some none := by
  have hne' : ¬(ck = pk) := fun hh => hne hh.symm
  have h1 : setDataId (wTwo pk ck) pk n =
      ⟨[(pk, { mkElem pk with indexName := some n }), (ck, mkElem ck)], [pk, ck],
       ⟨[(n, ⟨pk, true, false⟩)], [], [], none, false⟩, []⟩ := by
    simp [setDataId, handle, hn, wTwo, createElem, emptyWorld, initEmitter, lookupA, setA,
          World.updateElemW, updateA, mkElem, hne, hne']
  have h2 : handle (⟨[(n, ⟨pk, true, false⟩)], [], [], none, false⟩ : EmitterState)
      n ck true false = .error .nonWritableChannel := by
    simp [handle, hn, lookupA]
  refine ⟨?_, ?_, ?_, ?_⟩
  · rw [h1]; exact h2
  · rw [h1]; simp [setDataId, h2]
  · rw [h1]; simp [lookupA]
  · rw [h1]; simp [setDataId, h2, World.findElem, lookupA, mkElem, hne, hne']

/-- Witness for the amended C6 at a concrete input. -/
theorem C6_witness :
    handle (setDataId (wTwo 1 2) 1 "x").indexBus "x" 2 true false =
        .error .nonWritableChannel ∧
    setDataId (setDataId (wTwo 1 2) 1 "x") 2 "x" = setDataId (wTwo 1 2) 1 "x" ∧
    lookupA "x" (setDataId (wTwo 1 2) 1 "x").indexBus.channels = some ⟨1, true, false⟩ ∧
    ((setDataId (setDataId (wTwo 1 2) 1 "x") 2 "x").findElem 2).map
      (fun c => c.indexName) = some none :=
  C6_amended_first_assignment_wins 1 2 "x" (by decide) (by decide)

/-- Claim C2: `add("x")` issued on component `pk` before any id assignment is
queued on the indexed-lookup bus; assigning `component.data.id = "x"` on
component `ck` afterwards registers the resolution channel and drains the
queue, and once the deferred dispatch fires, `ck` is attached as `pk`'s
child (parent pointer set, in `contentMap` and `content`, surface appended),
while the channel keeps resolving `x` to `ck`. -/
theorem C2_queued_id_resolution_attaches (pk ck f : Nat) (n : String)
    (hne : pk ≠ ck) (hn : validChannelName n = true) :
    ∃ wF,
      runIndexTasks (f + 1) (setDataId (addByIndexName (wTwo pk ck) pk n).1 ck n) =
        (wF, []) ∧
      (wF.findElem ck).map (fun c => (c.parent, c.indexName, c.rendered)) =
        some (some pk, some n, true) ∧
      (wF.findElem pk).map (fun p => (p.contentMap, p.content, p.confChildren)) =
        some ([ck], [ck], [ck]) ∧
      lookupA n wF.indexBus.channels = some ⟨ck, true, false⟩ ∧
      lookupA n wF.indexBus.inWait = none := by
  have hne' : ¬(ck = pk) := fun hh => hne hh.symm
  have h1 : (addByIndexName (wTwo pk ck) pk n).1 =
      ⟨[(pk, mkElem pk), (ck, mkElem ck)], [pk, ck],
       ⟨[], [(n, [⟨n, some pk, []⟩])], [], none, false⟩, []⟩ := by
    simp [addByIndexName, invoke, wTwo, createElem, emptyWorld, initEmitter, hn,
          lookupA, pushWait, World.findElem, mkElem]
  have h2 : setDataId
      (⟨[(pk, mkElem pk), (ck, mkElem ck)], [pk, ck],
        ⟨[], [(n, [⟨n, some pk, []⟩])], [], none, false⟩, []⟩ : World) ck n =
      ⟨[(pk, mkElem pk), (ck, { mkElem ck with indexName := some n })], [pk, ck],
       ⟨[(n, ⟨ck, true, false⟩)], [], [⟨n, some pk, []⟩], none, false⟩, []⟩ := by
    simp [setDataId, handle, hn, lookupA, setA, eraseA, World.updateElemW, updateA,
          mkElem, hne, hne']
  have h3 : runIndexTasks (f + 1)
      (⟨[(pk, mkElem pk), (ck, { mkElem ck with indexName := some n })], [pk, ck],
        ⟨[(n, ⟨ck, true, false⟩)], [], [⟨n, some pk, []⟩], none, false⟩, []⟩ : World) =
      (⟨[(pk, { mkElem pk with content := [ck], contentMap := [ck], confChildren := [ck] }),
         (ck, { mkElem ck with indexName := some n, parent := some pk, rendered := true,
                               confId := some ck })], [pk, ck],
        ⟨[(n, ⟨ck, true, false⟩)], [], [], none, false⟩, []⟩, []) := by
    simp [runIndexTasks, runIndexTaskList, runIndexTask, add, render, renderContentAux,
          lookupA, updateA, World.findElem, World.updateElemW, insertKey, mkElem, hne, hne']
  rw [h1, h2]
  refine ⟨_, h3, ?_, ?_, ?_, ?_⟩ <;>
    simp [World.findElem, lookupA, mkElem, hne, hne']

/-- Witness for C2 at a concrete input. -/
theorem C2_witness :
    ∃ wF,
      runIndexTasks 1 (setDataId (addByIndexName (wTwo 1 2) 1 "x").1 2 "x") = (wF, []) ∧
      (wF.findElem 2).map (fun c => (c.parent, c.indexName, c.rendered)) =
        some (some 1, some "x", true) ∧
      (wF.findElem 1).map (fun p => (p.contentMap, p.content, p.confChildren)) =
        some ([2], [2], [2]) ∧
      lookupA "x" wF.indexBus.channels = some ⟨2, true, false⟩ ∧
      lookupA "x" wF.indexBus.inWait = none :=
  C2_queued_id_resolution_attaches 1 2 0 "x" (by decide) (by decide)

example : validChannelName "ch" = true := by decide

example : validChannelName "" = false := by decide

example : validChannelName "  " = false := by decide

example :
    invoke initEmitter "ch" (some 7) [1, 2] =
      .ok ⟨[], [("ch", [⟨"ch", some 7, [1, 2]⟩])], [], none, false⟩ := by decide

example :
    handle ⟨[], [("ch", [⟨"ch", some 7, [1, 2]⟩])], [], none, false⟩ "ch" 5 true true =
      .ok ⟨[("ch", ⟨5, true, true⟩)], [], [⟨"ch", some 7, [1, 2]⟩], none, false⟩ := by decide

example :
    runTimers (fun _ a => some (a.foldl (· + ·) 0))
        ⟨[("ch", ⟨5, true, true⟩)], [], [⟨"ch", some 7, [1, 2]⟩], none, false⟩ =
      (⟨[("ch", ⟨5, true, true⟩)], [], [], none, false⟩,
       [BusEv.listenerCalled 5 [1, 2], BusEv.callbackCalled 7 (some 3)]) := by decide

end Leis
